import Mathlib

/-!
Verification of `django_elasticsearch_dsl/signals.py` against its
natural-language specification.

The module is a thin adapter from ORM change notifications to calls on a
search-index registry.  We embed each handler as a function from its
arguments to the finite list of registry operations it performs, in order;
the signal-wiring mixin is embedded as a state transformer on the set of
(signal, handler) connections of the notification bus.
-/

/-- A registry operation emitted by a signal handler, parametrised by the
type of model instances.  The `delete` operation records the
`raise_on_error` keyword argument it is invoked with; the other calls in
`signals.py` pass no error-handling keyword, so failures propagate to the
caller. -/
inductive RegOp (ι : Type) : Type
  | update (inst : ι)
  | updateRelated (inst : ι)
  | deleteRelated (inst : ι)
  | delete (inst : ι) (raiseOnError : Bool)
deriving DecidableEq, Repr

/-- Auxiliary test: `headMatch n h` is true when `n` is an initial segment of `h`
(character lists). -/
def headMatch : List Char → List Char → Bool
  | [], _ => true
  | _ :: _, [] => false
  | a :: as, b :: bs => a == b && headMatch as bs

/-- Substring test: `strIn n h` embeds Python's `n in h` on strings: `n` occurs as a
contiguous substring of `h` (the empty string occurs in every string). -/
def strIn (n : List Char) : List Char → Bool
  | [] => n.isEmpty
  | b :: bs => headMatch n (b :: bs) || strIn n bs

/-- The character list of the literal `'post_add'`. -/
def pyPostAdd : List Char := "post_add".data

/-- The character list of the literal `'post_remove'`. -/
def pyPostRemove : List Char := "post_remove".data

/-- The character list of the literal `'post_clear'`. -/
def pyPostClear : List Char := "post_clear".data

/-- Embedding of `BaseSignalProcessor.handle_save`: `registry.update(instance)` then
`registry.update_related(instance)`. -/
def handleSave {ι : Type} (inst : ι) : List (RegOp ι) :=
  [RegOp.update inst, RegOp.updateRelated inst]

/-- Embedding of `BaseSignalProcessor.handle_delete`: `registry.delete_related(instance)`
then `registry.delete(instance, raise_on_error=False)`. -/
def handleDelete {ι : Type} (inst : ι) : List (RegOp ι) :=
  [RegOp.deleteRelated inst, RegOp.delete inst false]

/-- Embedding of `BaseSignalProcessor.handle_m2m_changed`: dispatches on `action`.
The first guard is `action in ('post_add')`, whose right operand is the
string `'post_add'` (not a tuple), so it is a substring test; the second
guard is tuple membership `action in ('post_remove', 'post_clear')`. -/
def handleM2MChanged {ι : Type} (inst : ι) (action : List Char) : List (RegOp ι) :=
  if strIn action pyPostAdd then handleSave inst
  else if action ∈ [pyPostRemove, pyPostClear] then handleDelete inst
  else []

/-- Whether a registry operation, as invoked from `signals.py`, reports its
failure to the caller: calls made without an error-suppressing keyword
propagate exceptions, while `delete` with `raise_on_error=False` suppresses
them.  Modelled from the spec for the registry side (the registry module is
not part of the source file): `raise_on_error=False` means a failure of the
operation is not raised. -/
def surfacesFailure {ι : Type} : RegOp ι → Bool
  | RegOp.delete _ raiseOnError => raiseOnError
  | _ => true

section Bus

/-- The three Django signals the module connects to. -/
inductive Sig : Type
  | postSave
  | postDelete
  | m2mChanged
deriving DecidableEq, Repr

/-- The three bound handler methods of the processor. -/
inductive Handler : Type
  | hSave
  | hDelete
  | hM2M
deriving DecidableEq, Repr

/-- The notification-bus subscription state: the ordered list of
(signal, handler) connections.  Modelled from the spec's Notification Bus
interface, with Django's `Signal.connect`/`Signal.disconnect` semantics:
connecting an already-connected receiver is a no-op, disconnecting removes
the receiver's entry. -/
abbrev BusState : Type := List (Sig × Handler)

/-- Embedding of `Signal.connect(receiver)`: appends the connection unless already
present. -/
def connect (sig : Sig) (h : Handler) (s : BusState) : BusState :=
  if (sig, h) ∈ s then s else s ++ [(sig, h)]

/-- Embedding of `Signal.disconnect(receiver)`: removes the connection. -/
def disconnect (sig : Sig) (h : Handler) (s : BusState) : BusState :=
  List.filter (fun p => p ≠ (sig, h)) s

/-- Embedding of `DjangoSignalsMixin.setup`: connect `handle_save` to `post_save`,
`handle_delete` to `post_delete`, `handle_m2m_changed` to `m2m_changed`,
in that order. -/
def setupBus (s : BusState) : BusState :=
  connect Sig.m2mChanged Handler.hM2M
    (connect Sig.postDelete Handler.hDelete
      (connect Sig.postSave Handler.hSave s))

/-- Embedding of `DjangoSignalsMixin.teardown`: disconnect the same three handlers, in
the same order. -/
def teardownBus (s : BusState) : BusState :=
  disconnect Sig.m2mChanged Handler.hM2M
    (disconnect Sig.postDelete Handler.hDelete
      (disconnect Sig.postSave Handler.hSave s))

/-- Embedding of `BaseSignalProcessor.setup`: does nothing. -/
def baseSetupBus (s : BusState) : BusState := s

/-- The state a processor object holds after `__init__`: the stored
`connections` argument. -/
structure ProcessorState (κ : Type) : Type where
  connections : κ

/-- Embedding of `BaseSignalProcessor.__init__(connections)`: stores `connections`, then
calls `self.setup()`; `selfSetup` is the dynamically dispatched `setup`
method of the concrete class. -/
def initProcessor {κ : Type} (selfSetup : BusState → BusState) (conns : κ)
    (bus : BusState) : ProcessorState κ × BusState :=
  ({ connections := conns }, selfSetup bus)

/-- Constructing a `RealTimeSignalProcessor`: its method resolution order
puts `DjangoSignalsMixin` first, so `self.setup()` is the mixin's signal
wiring. -/
def mkRealTimeProcessor {κ : Type} (conns : κ) (bus : BusState) :
    ProcessorState κ × BusState :=
  initProcessor setupBus conns bus

end Bus

section Coalescer

/-- Modelled from the spec: the kinds of a ChangeEvent
(section 3: Created, Updated, Deleted, RelationAdded, RelationRemoved,
RelationCleared).  The Change Coalescer is part of the specified design
only; no source file implements it. -/
inductive Kind : Type
  | created
  | updated
  | deleted
  | relAdded
  | relRemoved
  | relCleared
deriving DecidableEq, Repr

/-- Modelled from the spec: the dominance order
Deleted > Updated > Created > RelationAdded/Removed/Cleared, as a numeric
severity. -/
def severity : Kind → Nat
  | Kind.deleted => 3
  | Kind.updated => 2
  | Kind.created => 1
  | _ => 0

/-- Modelled from the spec: `observe(event)` merges the new kind into the
pending kind using the dominance order; a kind of equal or lower severity
never replaces the pending one (in particular relation events never
downgrade a pending Deleted/Updated). -/
def mergeKind (pending new : Kind) : Kind :=
  if severity pending < severity new then new else pending

/-- The resolved kind held in PendingSet after observing a non-empty
sequence of events `e :: es` for one identity. -/
def resolveKind (e : Kind) (es : List Kind) : Kind :=
  List.foldl mergeKind e es

/-- The resolved kind the claim asserts, from the claim's words: Deleted if
any Deleted occurred, else Updated if any non-Created occurred, else
Created. -/
def claimResolved (l : List Kind) : Kind :=
  if Kind.deleted ∈ l then Kind.deleted
  else if l.any (fun k => k != Kind.created) then Kind.updated
  else Kind.created

/-- The resolved kind the dominance merge actually yields: Deleted if any
Deleted occurred, else Updated if any Updated occurred, else Created if any
Created occurred, else the first (relation) event's kind. -/
def domResolved (e : Kind) (es : List Kind) : Kind :=
  if Kind.deleted ∈ e :: es then Kind.deleted
  else if Kind.updated ∈ e :: es then Kind.updated
  else if Kind.created ∈ e :: es then Kind.created
  else e

end Coalescer

section SubstringLemmas

/-- Correctness of `headMatch`: it decides whether `n` is an initial
segment of `h`. -/
theorem headMatch_iff : ∀ n h : List Char, headMatch n h = true ↔ ∃ t, h = n ++ t
  | [], h => by simp [headMatch]
  | a :: as, [] => by
      constructor
      · intro h
        exact absurd h (by simp [headMatch])
      · rintro ⟨t, ht⟩
        exact absurd ht (by simp)
  | a :: as, b :: bs => by
      rw [show headMatch (a :: as) (b :: bs) = (a == b && headMatch as bs) from rfl]
      simp only [Bool.and_eq_true, beq_iff_eq, headMatch_iff as bs, List.cons_append,
        List.cons.injEq]
      constructor
      · rintro ⟨rfl, t, rfl⟩
        exact ⟨t, rfl, rfl⟩
      · rintro ⟨t, rfl, rfl⟩
        exact ⟨rfl, t, rfl⟩

/-- Correctness of `strIn`: it decides whether `n` is a contiguous
substring of `h`, exactly Python's `in` on strings. -/
theorem strIn_iff : ∀ n h : List Char, strIn n h = true ↔ ∃ s t, h = s ++ n ++ t
  | n, [] => by
      simp only [strIn, List.isEmpty_iff]
      constructor
      · rintro rfl
        exact ⟨[], [], rfl⟩
      · rintro ⟨s, t, hst⟩
        rcases List.append_eq_nil.mp (List.append_eq_nil.mp hst.symm).1 with ⟨-, hn⟩
        exact hn
  | n, b :: bs => by
      rw [show strIn n (b :: bs) = (headMatch n (b :: bs) || strIn n bs) from rfl]
      simp only [Bool.or_eq_true, headMatch_iff, strIn_iff n bs]
      constructor
      · rintro (⟨t, ht⟩ | ⟨s, t, hst⟩)
        · exact ⟨[], t, by simpa using ht⟩
        · exact ⟨b :: s, t, by simp [hst]⟩
      · rintro ⟨s, t, hst⟩
        cases s with
        | nil => exact Or.inl ⟨t, by simpa using hst⟩
        | cons c cs =>
            rw [List.cons_append, List.cons_append, List.cons.injEq] at hst
            exact Or.inr ⟨cs, t, hst.2⟩

end SubstringLemmas

/-- Claim C1: for an `m2m_changed` notification with action `'post_add'`,
`handle_m2m_changed` performs exactly the registry operations of
`handle_save`: `registry.update(instance)` followed by
`registry.update_related(instance)`. -/
theorem c1_post_add_forwards_to_save {ι : Type} (inst : ι) :
    handleM2MChanged inst pyPostAdd = handleSave inst
      ∧ handleSave inst = [RegOp.update inst, RegOp.updateRelated inst] :=
  ⟨rfl, rfl⟩

/-- Claim C2: for actions `'post_remove'` and `'post_clear'`,
`handle_m2m_changed` performs exactly the registry operations of
`handle_delete` (`registry.delete_related(instance)` then
`registry.delete(instance, raise_on_error=False)`), and for these actions
the save path is never invoked: no `update`/`update_related` operation is
emitted. -/
theorem c2_post_remove_clear_forward_to_delete {ι : Type} (inst : ι) :
    handleM2MChanged inst pyPostRemove = handleDelete inst
      ∧ handleM2MChanged inst pyPostClear = handleDelete inst
      ∧ handleDelete inst = [RegOp.deleteRelated inst, RegOp.delete inst false]
      ∧ RegOp.update inst ∉ handleM2MChanged inst pyPostRemove
      ∧ RegOp.updateRelated inst ∉ handleM2MChanged inst pyPostRemove
      ∧ RegOp.update inst ∉ handleM2MChanged inst pyPostClear
      ∧ RegOp.updateRelated inst ∉ handleM2MChanged inst pyPostClear := by
  have hr : handleM2MChanged inst pyPostRemove
      = [RegOp.deleteRelated inst, RegOp.delete inst false] := rfl
  have hc : handleM2MChanged inst pyPostClear
      = [RegOp.deleteRelated inst, RegOp.delete inst false] := rfl
  refine ⟨rfl, rfl, rfl, ?_, ?_, ?_, ?_⟩
  · rw [hr]; simp
  · rw [hr]; simp
  · rw [hc]; simp
  · rw [hc]; simp

/-- Claim C3: `handle_delete` invokes `registry.delete_related` and
`registry.delete` on the instance but never `registry.update` or
`registry.update_related`: no upsert of the deleted identity is ever
produced. -/
theorem c3_delete_never_upserts_self {ι : Type} (inst : ι) :
    RegOp.deleteRelated inst ∈ handleDelete inst
      ∧ RegOp.delete inst false ∈ handleDelete inst
      ∧ RegOp.update inst ∉ handleDelete inst
      ∧ RegOp.updateRelated inst ∉ handleDelete inst := by
  refine ⟨?_, ?_, ?_, ?_⟩ <;> simp [handleDelete]

/-- Claim C4 counterexample: `handle_delete` does not emit the delete of
the identity itself first; its first registry operation is
`delete_related`, not `delete`, as evaluated at the concrete instance
`0 : Nat`. -/
theorem c4_cex_delete_is_not_first :
    ¬ ∃ roe : Bool, List.head? (handleDelete (0 : Nat)) = some (RegOp.delete 0 roe) := by
  decide

/-- Claim C4 as amended: `handle_delete` emits the related-objects
operation `registry.delete_related(instance)` first, and only afterwards
the delete of the identity itself, `registry.delete(instance,
raise_on_error=False)`. -/
theorem c4_amended_related_first_delete_last {ι : Type} (inst : ι) :
    List.head? (handleDelete inst) = some (RegOp.deleteRelated inst)
      ∧ List.getLast? (handleDelete inst) = some (RegOp.delete inst false)
      ∧ handleDelete inst = [RegOp.deleteRelated inst, RegOp.delete inst false] :=
  ⟨rfl, rfl, rfl⟩

/-- Claim C5: `handle_save` first updates the index document of the
instance itself and then updates the documents of its related identities:
`registry.update(instance)` precedes `registry.update_related(instance)`,
and these are the only operations performed. -/
theorem c5_save_self_before_related {ι : Type} (inst : ι) :
    List.head? (handleSave inst) = some (RegOp.update inst)
      ∧ List.getLast? (handleSave inst) = some (RegOp.updateRelated inst)
      ∧ handleSave inst = [RegOp.update inst, RegOp.updateRelated inst] :=
  ⟨rfl, rfl, rfl⟩

/-- Claim C6 counterexample: not every registry operation surfaces its
failure; the `delete` emitted by `handle_delete` (at the concrete instance
`0 : Nat`) is invoked with `raise_on_error=False`, so its failure is
suppressed without report. -/
theorem c6_cex_delete_failure_suppressed :
    ¬ ∀ op ∈ handleDelete (0 : Nat), surfacesFailure op = true := by
  decide

/-- Claim C6 as amended: the operations of the save path propagate their
failures to the caller, and the only operation whose failure is suppressed
is the final `registry.delete(instance, raise_on_error=False)` of
`handle_delete`, which is emitted on every delete and surfaces nothing. -/
theorem c6_amended_only_final_delete_suppressed {ι : Type} (inst : ι) :
    (∀ op ∈ handleSave inst, surfacesFailure op = true)
      ∧ (∀ op ∈ handleDelete inst, surfacesFailure op = false →
          op = RegOp.delete inst false)
      ∧ RegOp.delete inst false ∈ handleDelete inst
      ∧ surfacesFailure (RegOp.delete inst false) = false := by
  refine ⟨?_, ?_, ?_, rfl⟩
  · intro op hop
    rcases List.mem_cons.mp hop with rfl | hop
    · rfl
    · rcases List.mem_cons.mp hop with rfl | hop
      · rfl
      · exact absurd hop (List.not_mem_nil _)
  · intro op hop hfail
    rcases List.mem_cons.mp hop with rfl | hop
    · exact absurd hfail (by simp [surfacesFailure])
    · rcases List.mem_cons.mp hop with rfl | hop
      · rfl
      · exact absurd hop (List.not_mem_nil _)
  · simp [handleDelete]

/-- Witness for the amended claim C6, at the concrete instance `0 : Nat`:
the save path's first operation surfaces failures, and the suppressed
delete really occurs in `handle_delete`. -/
theorem c6_amended_witness :
    surfacesFailure (RegOp.update (0 : Nat)) = true
      ∧ RegOp.delete (0 : Nat) false ∈ handleDelete 0
      ∧ surfacesFailure (RegOp.delete (0 : Nat) false) = false :=
  ⟨(c6_amended_only_final_delete_suppressed (0 : Nat)).1 (RegOp.update 0)
      (by simp [handleSave]),
   (c6_amended_only_final_delete_suppressed (0 : Nat)).2.2.1,
   (c6_amended_only_final_delete_suppressed (0 : Nat)).2.2.2⟩

/-- Claim C9: the first guard of `handle_m2m_changed` is a substring test
on the string `'post_add'`, not tuple membership: every action that occurs
as a contiguous substring of `'post_add'` (so also `'post'`, `'add'`,
`'_'` and the empty string) takes the save path, and every other action
different from `'post_remove'` and `'post_clear'` performs no registry
operation at all. -/
theorem c9_substring_dispatch {ι : Type} (inst : ι) (action : List Char) :
    ((∃ s t, pyPostAdd = s ++ action ++ t) →
        handleM2MChanged inst action = handleSave inst)
      ∧ (¬ (∃ s t, pyPostAdd = s ++ action ++ t) → action ≠ pyPostRemove →
          action ≠ pyPostClear → handleM2MChanged inst action = []) := by
  constructor
  · intro hsub
    have h : strIn action pyPostAdd = true := (strIn_iff action pyPostAdd).mpr hsub
    simp [handleM2MChanged, h]
  · intro hsub h1 h2
    cases hb : strIn action pyPostAdd with
    | false => simp [handleM2MChanged, hb, h1, h2]
    | true => exact absurd ((strIn_iff action pyPostAdd).mp hb) hsub

/-- Witness for claim C9, at the concrete instance `0 : Nat`: the action
`'add'` (a proper substring of `'post_add'`) takes the save path, and the
action `'pre_add'` (not a substring, not in the tuple) performs no registry
operation. -/
theorem c9_substring_dispatch_witness :
    handleM2MChanged (0 : Nat) "add".data = handleSave 0
      ∧ handleM2MChanged (0 : Nat) "pre_add".data = [] :=
  ⟨(c9_substring_dispatch 0 "add".data).1 ⟨"post_".data, [], by decide⟩,
   (c9_substring_dispatch 0 "pre_add".data).2
      (fun hex => absurd ((strIn_iff "pre_add".data pyPostAdd).mpr hex) (by decide))
      (by decide) (by decide)⟩

/-- Helper: removing an element that is not in a list leaves the list
unchanged. -/
theorem filter_ne_of_not_mem {α : Type} [DecidableEq α] (a : α) :
    ∀ l : List α, a ∉ l → List.filter (fun p => p ≠ a) l = l
  | [], _ => rfl
  | b :: bs, h => by
      have hba : b ≠ a := fun hba => h (hba ▸ List.mem_cons_self b bs)
      have hbs : a ∉ bs := fun hm => h (List.mem_cons_of_mem b hm)
      simp only [List.filter_cons, decide_eq_true_eq, filter_ne_of_not_mem a bs hbs]
      rw [if_pos hba]

/-- Helper: a freshly connected handler is among the connections. -/
theorem mem_connect_self (sig : Sig) (h : Handler) (s : BusState) :
    (sig, h) ∈ connect sig h s := by
  unfold connect
  split
  · assumption
  · simp

/-- Helper: connecting preserves existing connections. -/
theorem mem_connect_of_mem {p : Sig × Handler} {s : BusState} (hp : p ∈ s)
    (sig : Sig) (hd : Handler) : p ∈ connect sig hd s := by
  unfold connect
  split
  · exact hp
  · exact List.mem_append_left _ hp

/-- Claim C7: `setup` followed by `teardown` is a round-trip on the
subscription state: starting from a state in which none of the three
handlers is connected, `setup` connects exactly `handle_save` to
`post_save`, `handle_delete` to `post_delete` and `handle_m2m_changed` to
`m2m_changed`, and `teardown` disconnects exactly those three, restoring
the original state. -/
theorem c7_setup_teardown_roundtrip (s : BusState)
    (h1 : (Sig.postSave, Handler.hSave) ∉ s)
    (h2 : (Sig.postDelete, Handler.hDelete) ∉ s)
    (h3 : (Sig.m2mChanged, Handler.hM2M) ∉ s) :
    setupBus s = s ++ [(Sig.postSave, Handler.hSave),
        (Sig.postDelete, Handler.hDelete), (Sig.m2mChanged, Handler.hM2M)]
      ∧ teardownBus (setupBus s) = s := by
  have e1 : connect Sig.postSave Handler.hSave s
      = s ++ [(Sig.postSave, Handler.hSave)] := by
    unfold connect
    rw [if_neg h1]
  have h2' : (Sig.postDelete, Handler.hDelete) ∉ s ++ [(Sig.postSave, Handler.hSave)] := by
    simp [h2]
  have e2 : connect Sig.postDelete Handler.hDelete (s ++ [(Sig.postSave, Handler.hSave)])
      = s ++ [(Sig.postSave, Handler.hSave), (Sig.postDelete, Handler.hDelete)] := by
    unfold connect
    rw [if_neg h2']
    simp
  have h3' : (Sig.m2mChanged, Handler.hM2M)
      ∉ s ++ [(Sig.postSave, Handler.hSave), (Sig.postDelete, Handler.hDelete)] := by
    simp [h3]
  have e3 : connect Sig.m2mChanged Handler.hM2M
        (s ++ [(Sig.postSave, Handler.hSave), (Sig.postDelete, Handler.hDelete)])
      = s ++ [(Sig.postSave, Handler.hSave), (Sig.postDelete, Handler.hDelete),
          (Sig.m2mChanged, Handler.hM2M)] := by
    unfold connect
    rw [if_neg h3']
    simp
  have hsetup : setupBus s = s ++ [(Sig.postSave, Handler.hSave),
      (Sig.postDelete, Handler.hDelete), (Sig.m2mChanged, Handler.hM2M)] := by
    unfold setupBus
    rw [e1, e2, e3]
  refine ⟨hsetup, ?_⟩
  rw [hsetup]
  unfold teardownBus disconnect
  rw [List.filter_append, filter_ne_of_not_mem _ s h1]
  rw [show List.filter (fun p => p ≠ (Sig.postSave, Handler.hSave))
      [(Sig.postSave, Handler.hSave), (Sig.postDelete, Handler.hDelete),
        (Sig.m2mChanged, Handler.hM2M)]
      = [(Sig.postDelete, Handler.hDelete), (Sig.m2mChanged, Handler.hM2M)] from by decide]
  rw [List.filter_append, filter_ne_of_not_mem _ s h2]
  rw [show List.filter (fun p => p ≠ (Sig.postDelete, Handler.hDelete))
      [(Sig.postDelete, Handler.hDelete), (Sig.m2mChanged, Handler.hM2M)]
      = [(Sig.m2mChanged, Handler.hM2M)] from by decide]
  rw [List.filter_append, filter_ne_of_not_mem _ s h3]
  rw [show List.filter (fun p => p ≠ (Sig.m2mChanged, Handler.hM2M))
      [(Sig.m2mChanged, Handler.hM2M)] = [] from by decide]
  simp

/-- Witness for claim C7, at the empty subscription state. -/
theorem c7_setup_teardown_roundtrip_witness :
    setupBus [] = [] ++ [(Sig.postSave, Handler.hSave),
        (Sig.postDelete, Handler.hDelete), (Sig.m2mChanged, Handler.hM2M)]
      ∧ teardownBus (setupBus []) = [] :=
  c7_setup_teardown_roundtrip [] (by decide) (by decide) (by decide)

/-- Claim C10: constructing a `RealTimeSignalProcessor` immediately
performs its subscription side effect: `__init__` stores the given
`connections` and calls `self.setup()`, so every newly constructed
processor is already connected to `post_save`, `post_delete` and
`m2m_changed`, with no separate activation step. -/
theorem c10_construction_connects {κ : Type} (conns : κ) (bus : BusState) :
    (mkRealTimeProcessor conns bus).1.connections = conns
      ∧ (mkRealTimeProcessor conns bus).2 = setupBus bus
      ∧ (Sig.postSave, Handler.hSave) ∈ (mkRealTimeProcessor conns bus).2
      ∧ (Sig.postDelete, Handler.hDelete) ∈ (mkRealTimeProcessor conns bus).2
      ∧ (Sig.m2mChanged, Handler.hM2M) ∈ (mkRealTimeProcessor conns bus).2 := by
  refine ⟨rfl, rfl, ?_, ?_, ?_⟩
  · exact mem_connect_of_mem (mem_connect_of_mem (mem_connect_self _ _ _) _ _) _ _
  · exact mem_connect_of_mem (mem_connect_self _ _ _) _ _
  · exact mem_connect_self _ _ _

/-- Claim C8 counterexample: the dominance merge does not realise the
claimed resolution rule; for the event sequence Created then RelationAdded
the merge resolves to Created (a relation event does not upgrade a pending
Created), while the claimed rule resolves to Updated because RelationAdded
is a non-Created event. -/
theorem c8_cex_relation_event_does_not_upgrade :
    resolveKind Kind.created [Kind.relAdded]
      ≠ claimResolved (Kind.created :: [Kind.relAdded]) := by
  decide

/-- Claim C8 as amended: for every non-empty event sequence, the dominance
merge resolves to Deleted if any Deleted event occurred, else Updated if
any Updated event occurred, else Created if any Created event occurred,
else (only relation events observed) the first event's kind. -/
theorem c8_amended_dominance_resolution (es : List Kind) :
    ∀ e : Kind, resolveKind e es = domResolved e es := by
  induction es with
  | nil => intro e; cases e <;> decide
  | cons k ks ih =>
      intro e
      have h : resolveKind e (k :: ks) = resolveKind (mergeKind e k) ks := rfl
      rw [h, ih (mergeKind e k)]
      cases e <;> cases k <;>
        simp [mergeKind, severity, domResolved, List.mem_cons]
